import Mathlib

/-!
Shallow embedding of the page-level layout-grouping core of the repository
(src/utils/parser_extractors.py and src/utils/parser_utils.py): grouping of
layout image blocks into figures by caption anchoring, and ordered
multi-strategy table extraction against a table-detection engine.

Coordinates are rationals.  Filesystem and engine collaborators
(bitmap export, safe-rect clipping, rasterization, the camelot engine and
CSV serialization) perform I/O in the source; they are modelled as explicit
oracle parameters whose responses are inputs to the embedded functions, so
every definition is executable.
-/

namespace ScaleRAG

/-! ### Geometry (parser_extractors.py lines 55-56) -/

/-- A PyMuPDF-style bounding box (x0, y0, x1, y1), y growing downwards. -/
structure BBox where
  x0 : ℚ
  y0 : ℚ
  x1 : ℚ
  y1 : ℚ
deriving Repr, DecidableEq, Inhabited

/-- Source: def _w(bb): return max(0.0, bb[2] - bb[0]) -/
def _w (bb : BBox) : ℚ := max 0 (bb.x1 - bb.x0)

/-- Source: def _h(bb): return max(0.0, bb[3] - bb[1]) -/
def _h (bb : BBox) : ℚ := max 0 (bb.y1 - bb.y0)

/-! ### Caption pattern matching

The source uses the regular expressions
r"^(Figure|Fig\.?)\s*\d+[\.:]?" (parser_extractors.py line 53) and
r"^(Table|Tab\.?)\s*\d+[\.:]?" (line 252), both case-insensitive, via
re.match (anchored prefix match).  Since the trailing [\.:]? is optional
and nothing follows it, such a match succeeds iff one of the alternation
branches is a prefix and is followed by optional whitespace and a digit.
The matcher below implements exactly that, including the backtracking
between the long keyword, the short keyword with a dot, and the short
keyword without it. -/

/-- After the keyword, the regex continues with backslash-s-star then
backslash-d-plus: skip whitespace, then the next character must be a digit. -/
def skipWsDigit : List Char → Bool
  | [] => false
  | c :: cs => if c.isWhitespace then skipWsDigit cs else c.isDigit

/-- Consume a literal keyword at the head of the character list. -/
def dropKeyword : List Char → List Char → Option (List Char)
  | [], cs => some cs
  | _ :: _, [] => none
  | k :: ks, c :: cs => if c = k then dropKeyword ks cs else none

/-- Case-insensitive prefix match for (FULL|SHORT\.?)\s*\d+[\.:]? where
FULL and SHORT are given lowercase. -/
def matchNumbered (fullKw shortKw : List Char) (s : String) : Bool :=
  let cs := s.toList.map Char.toLower
  (match dropKeyword fullKw cs with
   | some rest => skipWsDigit rest
   | none => false) ||
  (match dropKeyword shortKw cs with
   | some rest =>
      (match rest with
       | '.' :: r => skipWsDigit r || skipWsDigit rest
       | _ => skipWsDigit rest)
   | none => false)

/-- _CAP_RE of parser_extractors.py line 53 (figure captions). -/
def figureCapMatch (s : String) : Bool :=
  matchNumbered (['f', 'i', 'g', 'u', 'r', 'e']) (['f', 'i', 'g']) s

/-- CAPTION_RE of parser_extractors.py line 252 (table captions). -/
def tableCapMatch (s : String) : Bool :=
  matchNumbered (['t', 'a', 'b', 'l', 'e']) (['t', 'a', 'b']) s

/-! ### Page layout blocks (input to extract_image_blocks) -/

/-- One entry of pdict["blocks"].  A text block (btype 0) carries the
concatenation of its span texts (the source joins
block["lines"][i]["spans"][j]["text"]; we carry the joined string).
An image block (btype 1) may carry "xref", "number" and "image"."xref"
entries; absent keys are none. -/
structure PBlock where
  btype : Nat
  bbox : BBox
  text : String
  xref : Option Int
  number : Option Int
  imageXref : Option Int
deriving Repr, DecidableEq, Inhabited

/-- Python truthiness of an optional int: None and 0 are falsy.
Source line 92: xref = block.get("xref") or block.get("number"). -/
def pyOrInt : Option Int → Option Int → Option Int
  | some v, b => if v = 0 then b else some v
  | none, b => b

/-- Python truthiness of an optional string: None and "" are falsy. -/
def truthyStr : Option String → Bool
  | some s => s != ""
  | none => false

/-- Python truthiness of an optional float: None and 0.0 are falsy. -/
def truthyQ : Option ℚ → Bool
  | some x => x != 0
  | none => false

/-- Source lines 92-96: resolve the bitmap xref of a layout image block,
falling back to block["image"]["xref"] when neither "xref" nor "number"
yields an int. -/
def resolveXref (b : PBlock) : Option Int :=
  match pyOrInt b.xref b.number with
  | some v => some v
  | none => b.imageXref

/-- paths_by_xref.get(xref): association lookup in the export map
returned by the _export_page_images collaborator. -/
def lookupPath (paths : List (Int × Option String)) (x : Int) : Option String :=
  match paths.lookup x with
  | some p => p
  | none => none

/-- A layout image block after collection (source lines 85-98). -/
structure LayoutImg where
  bbox : BBox
  xref : Option Int
  image_path : Option String
deriving Repr, DecidableEq, Inhabited

/-- Source lines 85-98: keep the type-1 blocks whose area is at least
min_img_area, resolving their xref and exported path. -/
def collectLayoutImgs (paths : List (Int × Option String)) (blocks : List PBlock)
    (min_img_area : ℚ) : List LayoutImg :=
  (blocks.filter fun b =>
      b.btype == 1 && decide (min_img_area ≤ _w b.bbox * _h b.bbox)).map
    fun b =>
      let x := resolveXref b
      { bbox := b.bbox
        xref := x
        image_path := match x with
          | some v => lookupPath paths v
          | none => none }

/-- A caption block (source lines 103-112). -/
structure CapBlock where
  text : String
  bbox : BBox
deriving Repr, DecidableEq, Inhabited

/-- Source lines 103-112: the type-0 blocks whose stripped span text
matches _CAP_RE become caption blocks. -/
def collectCaptions (blocks : List PBlock) : List CapBlock :=
  (blocks.filter fun b => b.btype == 0 && figureCapMatch b.text.trim).map
    fun b => { text := b.text.trim, bbox := b.bbox }

/-! ### Candidate selection and grouping (source lines 114-188) -/

/-- Source line 119: cap_w = max(1e-6, _w(cap["bbox"])). -/
def capWidth (cap : CapBlock) : ℚ := max (1 / 1000000) (_w cap.bbox)

/-- The geometric filter of source lines 122-146, written as the
conjunction of the four kept-branch conditions (each source guard
"continues" on its negation):
line 128: not (by1 > cy0);
line 133: not (overlap / cap_w < min_cap_overlap);
line 138: not (dy < 0 or dy > max_v_gap);
line 143: not (abs(img_w - cap_w) / cap_w > width_tol). -/
def geomOK (cap : CapBlock) (min_cap_overlap max_v_gap width_tol : ℚ)
    (ib : LayoutImg) : Bool :=
  let cap_w := capWidth cap
  let overlap := max 0 (min ib.bbox.x1 cap.bbox.x1 - max ib.bbox.x0 cap.bbox.x0)
  let dy := cap.bbox.y0 - ib.bbox.y1
  decide (ib.bbox.y1 ≤ cap.bbox.y0) &&
  decide (min_cap_overlap ≤ overlap / cap_w) &&
  (decide (0 ≤ dy) && decide (dy ≤ max_v_gap)) &&
  decide (abs (_w ib.bbox - cap_w) / cap_w ≤ width_tol)

/-- Source lines 121-146: scan enumerate(layout_imgs), skipping already
assigned indices, and keep the indices passing the geometric filter. -/
def candIdxs (imgs : List LayoutImg) (cap : CapBlock) (assigned : List Nat)
    (min_cap_overlap max_v_gap width_tol : ℚ) : List Nat :=
  (List.range imgs.length).filter fun idx =>
    !(decide (idx ∈ assigned)) &&
    geomOK cap min_cap_overlap max_v_gap width_tol (imgs.getD idx default)

/-- Pointwise bounding-box union (source line 155). -/
def bboxUnion (a b : BBox) : BBox :=
  ⟨min a.x0 b.x0, min a.y0 b.y0, max a.x1 b.x1, max a.y1 b.y1⟩

/-- Source lines 152-156: union bbox of the candidate parts (the index
list is nonempty whenever this is used). -/
def unionOf (imgs : List LayoutImg) : List Nat → BBox
  | [] => ⟨0, 0, 0, 0⟩
  | i :: rest =>
      rest.foldl (fun u j => bboxUnion u (imgs.getD j default).bbox)
        (imgs.getD i default).bbox

/-- Source lines 159-165: the first candidate whose image_path is truthy. -/
def firstExportedPath (imgs : List LayoutImg) : List Nat → Option String
  | [] => none
  | i :: rest =>
      let p := (imgs.getD i default).image_path
      if truthyStr p then p else firstExportedPath imgs rest

/-- Output file name for a rasterized figure union crop (source line 171). -/
def figRasterName (img_dir stem : String) (pno k : Nat) : String :=
  img_dir ++ "/" ++ stem ++ "_p" ++ toString pno ++ "_fig" ++ toString k ++ ".png"

/-- Output file name for a rasterized leftover block crop (source line 198). -/
def blkRasterName (img_dir stem : String) (pno i : Nat) : String :=
  img_dir ++ "/" ++ stem ++ "_p" ++ toString pno ++ "_blk" ++ toString i ++ "_crop.png"

/-- An emitted figure (source lines 180-186 and 204-210).  The source
stores the constituent blocks layout_imgs[i] in "parts"; we record the
list of their indices i into the collected layout-image list, from which
those records are recovered by lookup. -/
structure Figure where
  page_no : Nat
  caption : Option String
  bbox : BBox
  image_path : Option String
  parts : List Nat
deriving Repr, DecidableEq, Inhabited

/-- Per-page figure stats (source lines 212-219). -/
structure FigStats where
  layout_blocks : Nat
  xobjects_found : Nat
  xobjects_exported : Nat
  figures : Nat
  with_caption : Nat
  leftovers : Nat
deriving Repr, DecidableEq, Inhabited

/-- One iteration of the caption loop (source lines 117-188) over the
state (assigned indices, figures emitted so far).  safeRect models the
_safe_rect collaborator (None when the clipped rect is degenerate) and
rasterOk models whether _raster_crop succeeds at the given rect, dpi and
output path. -/
def groupStep (imgs : List LayoutImg) (safeRect : BBox → Option BBox)
    (rasterOk : BBox → Nat → String → Bool)
    (pno : Nat) (img_dir stem : String) (raster_fallback : Bool)
    (raster_dpi : Nat) (min_cap_overlap max_v_gap width_tol : ℚ)
    (st : List Nat × List Figure) (cap : CapBlock) : List Nat × List Figure :=
  let cands := candIdxs imgs cap st.1 min_cap_overlap max_v_gap width_tol
  if cands.isEmpty then st
  else
    let ubox := unionOf imgs cands
    let rep0 := firstExportedPath imgs cands
    let rep :=
      if !truthyStr rep0 && raster_fallback then
        match safeRect ubox with
        | some rect =>
            let out := figRasterName img_dir stem pno (st.2.length + 1)
            if rasterOk rect raster_dpi out then some out else rep0
        | none => rep0
      else rep0
    (st.1 ++ cands, st.2 ++ [⟨pno, some cap.text, ubox, rep, cands⟩])

/-- Source lines 192-210: a leftover image block becomes a singleton
figure with no caption. -/
def leftoverFig (imgs : List LayoutImg) (safeRect : BBox → Option BBox)
    (rasterOk : BBox → Nat → String → Bool)
    (pno : Nat) (img_dir stem : String) (raster_fallback : Bool)
    (raster_dpi : Nat) (i : Nat) : Figure :=
  let ib := imgs.getD i default
  let rep0 := ib.image_path
  let rep :=
    if !truthyStr rep0 && raster_fallback then
      match safeRect ib.bbox with
      | some rect =>
          let out := blkRasterName img_dir stem pno (i + 1)
          if rasterOk rect raster_dpi out then some out else rep0
      | none => rep0
    else rep0
  ⟨pno, none, ib.bbox, rep, [i]⟩

/-- extract_image_blocks (parser_extractors.py lines 58-220).
pathsByXref is the response of the _export_page_images collaborator
(source line 80); safeRect and rasterOk are the _safe_rect and
_raster_crop collaborators. -/
def extract_image_blocks
    (pathsByXref : List (Int × Option String))
    (safeRect : BBox → Option BBox)
    (rasterOk : BBox → Nat → String → Bool)
    (blocks : List PBlock)
    (pno : Nat) (img_dir stem : String)
    (raster_fallback : Bool) (raster_dpi : Nat)
    (min_img_area min_cap_overlap max_v_gap width_tol : ℚ) :
    List Figure × FigStats :=
  let xobjects_found := pathsByXref.length
  let xobjects_exported := (pathsByXref.filter fun p => truthyStr p.2).length
  let layout_imgs := collectLayoutImgs pathsByXref blocks min_img_area
  let captions := collectCaptions blocks
  let st := captions.foldl
    (groupStep layout_imgs safeRect rasterOk pno img_dir stem raster_fallback
      raster_dpi min_cap_overlap max_v_gap width_tol) ([], [])
  let leftovers := (List.range layout_imgs.length).filter fun i =>
    !(decide (i ∈ st.1))
  let figures := st.2 ++ leftovers.map
    (leftoverFig layout_imgs safeRect rasterOk pno img_dir stem
      raster_fallback raster_dpi)
  (figures,
   { layout_blocks := layout_imgs.length
     xobjects_found := xobjects_found
     xobjects_exported := xobjects_exported
     figures := figures.length
     with_caption := (figures.filter fun f => truthyStr f.caption).length
     leftovers := leftovers.length })

/-! ### Table area planning (parser_utils.py lines 58-79) -/

/-- A candidate search rectangle for the table engine.  The source
serializes each as the comma-separated string "x1,y1,x2,y2" for
camelot's table_areas; we keep the four numbers (see areaStr). -/
structure Area where
  x1 : ℚ
  y1 : ℚ
  x2 : ℚ
  y2 : ℚ
deriving Repr, DecidableEq, Inhabited

/-- The serialization of an Area as passed to the engine and used in the
attempt description strings. -/
def areaStr (a : Area) : String :=
  toString a.x1 ++ "," ++ toString a.y1 ++ "," ++ toString a.x2 ++ "," ++ toString a.y2

/-- The Y-flip conversion of to_camelot (parser_utils.py lines 68-75):
conversion A maps a PyMuPDF rect (ax0, ay0, ax1, ay1) to
(ax0, page_h - ay1, ax1, page_h - ay0). -/
def flipY (page_h : ℚ) (a : Area) : Area :=
  ⟨a.x1, page_h - a.y2, a.x2, page_h - a.y1⟩

/-- _areas_from_caption_bbox (parser_utils.py lines 58-79): the above and
below regions in PyMuPDF coordinates, each emitted flipped then
unflipped, in the order [above-flipped, above-unflipped, below-flipped,
below-unflipped]. -/
def _areas_from_caption_bbox (cbx : BBox) (page_w page_h pad : ℚ) : List Area :=
  let above : Area := ⟨0 + pad, 0 + pad, page_w - pad, max 0 (cbx.y0 - pad)⟩
  let below : Area := ⟨0 + pad, min page_h (cbx.y1 + pad), page_w - pad, page_h - pad⟩
  [flipY page_h above, above, flipY page_h below, below]

/-! ### Table extraction (parser_extractors.py lines 234-335) -/

/-- A page_texts entry as consumed by extract_tables_for_page: only the
"text" and "bbox" keys are read (lines 255 and 264). -/
structure PageText where
  text : String
  bbox : BBox
deriving Repr, DecidableEq, Inhabited

/-- One attempt of the ordered attempt list (source lines 259-295): the
flavor, the kwargs-description string, and the camelot kwargs actually
varied by the source (pages, optional table_areas, process_background,
line_scale for lattice; row/column/edge tolerances for stream). -/
structure TableAttempt where
  flavor : String
  desc : String
  pages : Nat
  table_areas : Option Area
  process_background : Bool
  line_scale : Option Nat
  row_tol : Option Nat
  column_tol : Option Nat
  edge_tol : Option Nat
deriving Repr, DecidableEq, Inhabited

/-- A lattice attempt: dict(pages=str(pno), flavor="lattice",
table_areas=[area] when given, process_background=True, line_scale=40). -/
def latticeAttempt (pno : Nat) (area : Option Area) (d : String) : TableAttempt :=
  ⟨"lattice", d, pno, area, true, some 40, none, none, none⟩

/-- A stream attempt: dict(pages=str(pno), flavor="stream",
table_areas=[area] when given, row_tol=8, column_tol=8, edge_tol=50). -/
def streamAttempt (pno : Nat) (area : Option Area) (d : String) : TableAttempt :=
  ⟨"stream", d, pno, area, false, none, some 8, some 8, some 50⟩

/-- Source lines 259-295: build the ordered attempt list.  Caption and
page-dimension availability follow Python truthiness (a 0.0 dimension is
falsy, source lines 263 and 276). -/
def buildAttempts (pno : Nat) (caption : Option PageText)
    (page_w page_h : Option ℚ) : List TableAttempt :=
  let capAttempts :=
    match caption with
    | some cap =>
        if truthyQ page_h && truthyQ page_w then
          (_areas_from_caption_bbox cap.bbox (page_w.getD 0) (page_h.getD 0) 6).flatMap
            fun area =>
              [latticeAttempt pno (some area)
                 ("area=" ++ areaStr area ++ ",line_scale=40"),
               streamAttempt pno (some area)
                 ("area=" ++ areaStr area ++ ",row_tol=8,col_tol=8")]
        else []
    | none => []
  let fallback :=
    if truthyQ page_h && truthyQ page_w then
      let w := page_w.getD 0
      let h := page_h.getD 0
      let inset : ℚ := 6
      let fullA : Area := ⟨inset, inset, w - inset, h - inset⟩
      let fullB : Area := ⟨inset, h - inset, w - inset, inset⟩
      [fullA, fullB].flatMap fun area =>
        [latticeAttempt pno (some area)
           ("full=" ++ areaStr area ++ ",line_scale=40"),
         streamAttempt pno (some area)
           ("full=" ++ areaStr area ++ ",row_tol=8,col_tol=8")]
    else
      [latticeAttempt pno none ("no-area,line_scale=40"),
       streamAttempt pno none ("no-area,row/col tol")]
  capAttempts ++ fallback

/-- A table candidate returned by the engine: t.shape = (nrows, ncols)
and t.df.values.tolist() = cells. -/
structure TCand where
  nrows : Nat
  ncols : Nat
  cells : List (List String)
deriving Repr, DecidableEq, Inhabited

/-- Source line 309: content = "\n".join(" ".join(r) for r in rows). -/
def candContent (t : TCand) : String :=
  String.intercalate ("\n") (t.cells.map (String.intercalate (" ")))

/-- Whether a string contains a digit character (source line 310). -/
def hasDigit (s : String) : Bool := s.toList.any Char.isDigit

/-- The acceptance filter of source lines 307-310: at least 2 rows, at
least 2 columns, and a digit somewhere in the cell text. -/
def acceptCand (t : TCand) : Bool :=
  decide (2 ≤ t.nrows) && decide (2 ≤ t.ncols) && hasDigit (candContent t)

/-- An emitted table record (source lines 319-322). -/
structure TableRec where
  page_no : Nat
  index : Nat
  engine : String
  flavor : String
  nrows : Nat
  ncols : Nat
  csv_path : Option String
deriving Repr, DecidableEq, Inhabited

/-- The CSV artifact name (source line 315). -/
def csvName (workdir stem : String) (pno i : Nat) (flavor : String) : String :=
  workdir ++ "/" ++ stem ++ "_p" ++ toString pno ++ "_table" ++ toString i
    ++ "_" ++ flavor ++ ".csv"

/-- The per-page table stats dict (source lines 246-247).  The "attempts"
entry is initialized to [] and never appended to by the source, so it is
omitted here (always empty). -/
structure TableStats where
  page : Nat
  tried : List String
  found : Nat
  saved_csv : Nat
  error : Option String
deriving Repr, DecidableEq, Inhabited

/-- Mutable state threaded through the attempt loop: the tables list and
the stats entries the loop touches. -/
structure RunSt where
  tables : List TableRec
  tried : List String
  found : Nat
  saved_csv : Nat
  error : Option String
deriving Repr, DecidableEq, Inhabited

/-- The per-candidate loop of source lines 305-323 over one attempt's
engine result.  toCsv models t.to_csv: Except.error e is a raised
exception (repr string e), which in the source propagates to the
page-level handler; the tables and saved_csv accumulated before the
raise persist, so they are returned alongside the error.  Returns
(tables, saved_csv, accepted, raised?). -/
def processCands (toCsv : String → Except String Unit) (save_csv : Bool)
    (workdir stem : String) (pno : Nat) (flavor : String) :
    List TCand → Nat → List TableRec → Nat → Nat →
    List TableRec × Nat × Nat × Option String
  | [], _, tbls, saved, acc => (tbls, saved, acc, none)
  | t :: ts, i, tbls, saved, acc =>
    if acceptCand t then
      if save_csv then
        let path := csvName workdir stem pno i flavor
        match toCsv path with
        | Except.error e => (tbls, saved, acc, some e)
        | Except.ok _ =>
            processCands toCsv save_csv workdir stem pno flavor ts (i + 1)
              (tbls ++ [⟨pno, i, "camelot", flavor, t.nrows, t.ncols, some path⟩])
              (saved + 1) (acc + 1)
      else
        processCands toCsv save_csv workdir stem pno flavor ts (i + 1)
          (tbls ++ [⟨pno, i, "camelot", flavor, t.nrows, t.ncols, none⟩])
          saved (acc + 1)
    else processCands toCsv save_csv workdir stem pno flavor ts (i + 1) tbls saved acc

/-- The tried-list entry for an attempt (source line 299). -/
def tryDesc (a : TableAttempt) : String := a.flavor ++ ":" ++ a.desc

/-- The attempt loop of source lines 298-327, with the page-level
exception handler of lines 329-330.  engine models camelot.read_pdf:
Except.error e is a raised exception whose repr is e.  A raise (from the
engine or from a CSV write) ends the loop with stats["error"] set; an
attempt with at least one accepted table ends the loop normally
(source line 327). -/
def runAttempts (engine : TableAttempt → Except String (List TCand))
    (toCsv : String → Except String Unit) (save_csv : Bool)
    (workdir stem : String) (pno : Nat) :
    List TableAttempt → RunSt → RunSt
  | [], st => st
  | a :: rest, st =>
    let st1 : RunSt := { st with tried := st.tried ++ [tryDesc a] }
    match engine a with
    | Except.error e =>
        { st1 with error := some ("Camelot failed/skipped: " ++ e) }
    | Except.ok t_all =>
        if t_all.length = 0 then
          runAttempts engine toCsv save_csv workdir stem pno rest st1
        else
          match processCands toCsv save_csv workdir stem pno a.flavor t_all 1
              st1.tables st1.saved_csv 0 with
          | (tbls, saved, _, some e) =>
              { st1 with tables := tbls, saved_csv := saved,
                         error := some ("Camelot failed/skipped: " ++ e) }
          | (tbls, saved, acc, none) =>
              if acc = 0 then
                runAttempts engine toCsv save_csv workdir stem pno rest
                  { st1 with tables := tbls, saved_csv := saved }
              else
                { st1 with tables := tbls, saved_csv := saved,
                           found := st1.found + acc }

/-- extract_tables_for_page (parser_extractors.py lines 234-335).
page carries (width, height) of page.rect when a page object is given.
The unused flavors parameter of the source (the attempt list hardcodes
its flavors) is omitted.  After the loop, a zero found count with no
recorded error yields the no-tables diagnostic (lines 332-333; note the
source tests the error string for Python truthiness). -/
def extract_tables_for_page
    (engine : TableAttempt → Except String (List TCand))
    (toCsv : String → Except String Unit)
    (pno : Nat) (workdir stem : String)
    (page_texts : List PageText)
    (page : Option (ℚ × ℚ))
    (save_csv : Bool) :
    List TableRec × TableStats :=
  let page_w := page.map Prod.fst
  let page_h := page.map Prod.snd
  let caption := page_texts.find? fun t => tableCapMatch t.text
  let attempts := buildAttempts pno caption page_w page_h
  let st := runAttempts engine toCsv save_csv workdir stem pno attempts
    ⟨[], [], 0, 0, none⟩
  let err :=
    if st.found == 0 && !truthyStr st.error then
      some ("no tables detected on this page")
    else st.error
  (st.tables, ⟨pno, st.tried, st.found, st.saved_csv, err⟩)

/-! ### Claim-side auxiliary definitions -/

/-- The above region the planner builds in PyMuPDF coordinates
(parser_utils.py line 65): full page width minus pad, from the top margin
down to just above the caption top. -/
def aboveRegion (cbx : BBox) (page_w pad : ℚ) : Area :=
  ⟨0 + pad, 0 + pad, page_w - pad, max 0 (cbx.y0 - pad)⟩

/-- The below region the planner builds in PyMuPDF coordinates
(parser_utils.py line 66): full page width minus pad, from just below the
caption bottom to the page bottom minus pad. -/
def belowRegion (cbx : BBox) (page_w page_h pad : ℚ) : Area :=
  ⟨0 + pad, min page_h (cbx.y1 + pad), page_w - pad, page_h - pad⟩

/-- The spec's notion of a rectangle clipped to valid page bounds: every
coordinate lies within [0, page_w] x [0, page_h]. -/
def areaInBounds (page_w page_h : ℚ) (a : Area) : Prop :=
  (0 ≤ a.x1 ∧ a.x1 ≤ page_w) ∧ (0 ≤ a.y1 ∧ a.y1 ≤ page_h) ∧
  (0 ≤ a.x2 ∧ a.x2 ≤ page_w) ∧ (0 ≤ a.y2 ∧ a.y2 ≤ page_h)

instance (page_w page_h : ℚ) (a : Area) : Decidable (areaInBounds page_w page_h a) := by
  unfold areaInBounds; infer_instance

/-- A table record is sourced in an accepted engine candidate of one of
the given attempts: the engine returned a candidate with the record's row
and column counts that passes the acceptance filter (at least 2 rows, at
least 2 columns, a digit in its concatenated cell text). -/
def hasSourceCand (engine : TableAttempt → Except String (List TCand))
    (attempts : List TableAttempt) (r : TableRec) : Prop :=
  ∃ a ∈ attempts, ∃ l, engine a = Except.ok l ∧
    ∃ c ∈ l, 2 ≤ c.nrows ∧ 2 ≤ c.ncols ∧ hasDigit (candContent c) = true ∧
      r.nrows = c.nrows ∧ r.ncols = c.ncols

/-- The full input of extract_image_blocks, collaborator responses
included, bundled for the determinism statement. -/
structure FigInput where
  pathsByXref : List (Int × Option String)
  safeRect : BBox → Option BBox
  rasterOk : BBox → Nat → String → Bool
  blocks : List PBlock
  pno : Nat
  img_dir : String
  stem : String
  raster_fallback : Bool
  raster_dpi : Nat
  min_img_area : ℚ
  min_cap_overlap : ℚ
  max_v_gap : ℚ
  width_tol : ℚ

/-- Run extract_image_blocks on a bundled input. -/
def runFig (i : FigInput) : List Figure × FigStats :=
  extract_image_blocks i.pathsByXref i.safeRect i.rasterOk i.blocks i.pno
    i.img_dir i.stem i.raster_fallback i.raster_dpi i.min_img_area
    i.min_cap_overlap i.max_v_gap i.width_tol

/-- The full input of extract_tables_for_page, collaborator responses
included, bundled for the determinism statement. -/
structure TabInput where
  engine : TableAttempt → Except String (List TCand)
  toCsv : String → Except String Unit
  pno : Nat
  workdir : String
  stem : String
  page_texts : List PageText
  page : Option (ℚ × ℚ)
  save_csv : Bool

/-- Run extract_tables_for_page on a bundled input. -/
def runTab (i : TabInput) : List TableRec × TableStats :=
  extract_tables_for_page i.engine i.toCsv i.pno i.workdir i.stem
    i.page_texts i.page i.save_csv

/-! ## Theorems -/

/-- C3 counterexample: the planner's output is not clipped to valid page
bounds for every caption bbox (a caption below the page bottom yields a
negative flipped coordinate and a coordinate beyond page_h), and even for
a caption inside the page the above region can be degenerate (zero
vertical extent), so the non-degeneracy part fails as well. -/
theorem areas_counterexample :
    (¬ ∀ a ∈ _areas_from_caption_bbox ⟨0, 200, 50, 210⟩ 100 100 6,
        areaInBounds 100 100 a) ∧
    (∃ a ∈ _areas_from_caption_bbox ⟨0, 12, 50, 20⟩ 100 100 6, a.y1 = a.y2) :=
  of_decide_eq_true (by with_unfolding_all rfl)

/-- C3 (amended): _areas_from_caption_bbox always returns exactly 4
rectangles, in the fixed order above-flipped, above-unflipped,
below-flipped, below-unflipped; when the caption's vertical extent lies
within [0, page_h] and 0 ≤ pad ≤ min(page_w, page_h), every returned
coordinate lies within [0, page_w] x [0, page_h].  The rectangles are not
fully clipped for captions outside the page, and they may be degenerate
(empty regions are returned, not filtered). -/
theorem areas_from_caption_spec (cbx : BBox) (pw ph pad : ℚ)
    (hpad : 0 ≤ pad) (hpw : pad ≤ pw) (hph : pad ≤ ph)
    (hy0u : cbx.y0 ≤ ph) (hy1l : 0 ≤ cbx.y1) :
    _areas_from_caption_bbox cbx pw ph pad =
      [flipY ph (aboveRegion cbx pw pad), aboveRegion cbx pw pad,
       flipY ph (belowRegion cbx pw ph pad), belowRegion cbx pw ph pad] ∧
    (_areas_from_caption_bbox cbx pw ph pad).length = 4 ∧
    ∀ a ∈ _areas_from_caption_bbox cbx pw ph pad, areaInBounds pw ph a := by
  have h0 : (0 : ℚ) ≤ ph := le_trans hpad hph
  have hmaxle : max 0 (cbx.y0 - pad) ≤ ph := max_le h0 (by linarith)
  have hmaxge : (0 : ℚ) ≤ max 0 (cbx.y0 - pad) := le_max_left 0 _
  have hminle : min ph (cbx.y1 + pad) ≤ ph := min_le_left _ _
  have hminge : (0 : ℚ) ≤ min ph (cbx.y1 + pad) := le_min h0 (by linarith)
  refine ⟨rfl, rfl, ?_⟩
  intro a ha
  simp only [_areas_from_caption_bbox, List.mem_cons, List.not_mem_nil,
    or_false] at ha
  rcases ha with h | h | h | h <;> subst h <;>
    simp only [areaInBounds, flipY, aboveRegion, belowRegion] <;>
    refine ⟨⟨?_, ?_⟩, ⟨?_, ?_⟩, ⟨?_, ?_⟩, ⟨?_, ?_⟩⟩ <;> linarith

/-- C3 witness: the amended statement at a caption inside a 100 x 120
page with the default pad of 6. -/
theorem areas_from_caption_spec_instance :
    _areas_from_caption_bbox ⟨10, 50, 60, 60⟩ 100 120 6 =
      [flipY 120 (aboveRegion ⟨10, 50, 60, 60⟩ 100 6),
       aboveRegion ⟨10, 50, 60, 60⟩ 100 6,
       flipY 120 (belowRegion ⟨10, 50, 60, 60⟩ 100 120 6),
       belowRegion ⟨10, 50, 60, 60⟩ 100 120 6] ∧
    (_areas_from_caption_bbox ⟨10, 50, 60, 60⟩ 100 120 6).length = 4 ∧
    ∀ a ∈ _areas_from_caption_bbox ⟨10, 50, 60, 60⟩ 100 120 6,
      areaInBounds 100 120 a :=
  areas_from_caption_spec ⟨10, 50, 60, 60⟩ 100 120 6
    (of_decide_eq_true (by with_unfolding_all rfl))
    (of_decide_eq_true (by with_unfolding_all rfl))
    (of_decide_eq_true (by with_unfolding_all rfl))
    (of_decide_eq_true (by with_unfolding_all rfl))
    (of_decide_eq_true (by with_unfolding_all rfl))

/-- C7: with a matching table caption and both page dimensions available
(truthy), the ordered attempt list has exactly 12 entries: 8
caption-anchored attempts (the 4 planner rectangles, each with the
lattice then the stream strategy) followed by 4 fallback attempts (the 2
inset full-page rectangle variants, each with both strategies); with
page dimensions unavailable, exactly 2 attempts with no area
restriction. -/
theorem attempt_list_shape
    (page_texts : List PageText) (pno : Nat) (w h : ℚ) (cap : PageText)
    (hc : page_texts.find? (fun t => tableCapMatch t.text) = some cap)
    (hw : w ≠ 0) (hh : h ≠ 0) :
    (buildAttempts pno (page_texts.find? fun t => tableCapMatch t.text)
        (some w) (some h)).length = 12 ∧
    ((buildAttempts pno (page_texts.find? fun t => tableCapMatch t.text)
        (some w) (some h)).take 8).map (fun a => a.table_areas)
      = (_areas_from_caption_bbox cap.bbox w h 6).flatMap
          (fun r => [some r, some r]) ∧
    ((buildAttempts pno (page_texts.find? fun t => tableCapMatch t.text)
        (some w) (some h)).take 8).map (fun a => a.flavor)
      = ["lattice", "stream", "lattice", "stream",
         "lattice", "stream", "lattice", "stream"] ∧
    ((buildAttempts pno (page_texts.find? fun t => tableCapMatch t.text)
        (some w) (some h)).drop 8).map (fun a => a.table_areas)
      = [some ⟨6, 6, w - 6, h - 6⟩, some ⟨6, 6, w - 6, h - 6⟩,
         some ⟨6, h - 6, w - 6, 6⟩, some ⟨6, h - 6, w - 6, 6⟩] ∧
    ((buildAttempts pno (page_texts.find? fun t => tableCapMatch t.text)
        (some w) (some h)).drop 8).map (fun a => a.flavor)
      = ["lattice", "stream", "lattice", "stream"] ∧
    (∀ c, (buildAttempts pno c none none).length = 2 ∧
       ∀ a ∈ buildAttempts pno c none none, a.table_areas = none) := by
  rw [hc]
  refine ⟨?_, ?_, ?_, ?_, ?_, ?_⟩
  · simp [buildAttempts, truthyQ, hw, hh, _areas_from_caption_bbox]
  · simp [buildAttempts, truthyQ, hw, hh, _areas_from_caption_bbox,
      latticeAttempt, streamAttempt]
  · simp [buildAttempts, truthyQ, hw, hh, _areas_from_caption_bbox,
      latticeAttempt, streamAttempt]
  · simp [buildAttempts, truthyQ, hw, hh, _areas_from_caption_bbox,
      latticeAttempt, streamAttempt]
  · simp [buildAttempts, truthyQ, hw, hh, _areas_from_caption_bbox,
      latticeAttempt, streamAttempt]
  · intro c
    cases c <;>
      simp [buildAttempts, truthyQ, latticeAttempt, streamAttempt]

/-- C7 witness: a page with the caption "Table 1" and dimensions
612 x 792. -/
theorem attempt_list_shape_instance :
    (buildAttempts 1 ([(⟨"Table 1", ⟨10, 500, 300, 520⟩⟩ : PageText)].find?
        fun t => tableCapMatch t.text) (some 612) (some 792)).length = 12 ∧
    ((buildAttempts 1 ([(⟨"Table 1", ⟨10, 500, 300, 520⟩⟩ : PageText)].find?
        fun t => tableCapMatch t.text) (some 612) (some 792)).take 8).map
          (fun a => a.table_areas)
      = (_areas_from_caption_bbox ⟨10, 500, 300, 520⟩ 612 792 6).flatMap
          (fun r => [some r, some r]) ∧
    ((buildAttempts 1 ([(⟨"Table 1", ⟨10, 500, 300, 520⟩⟩ : PageText)].find?
        fun t => tableCapMatch t.text) (some 612) (some 792)).take 8).map
          (fun a => a.flavor)
      = ["lattice", "stream", "lattice", "stream",
         "lattice", "stream", "lattice", "stream"] ∧
    ((buildAttempts 1 ([(⟨"Table 1", ⟨10, 500, 300, 520⟩⟩ : PageText)].find?
        fun t => tableCapMatch t.text) (some 612) (some 792)).drop 8).map
          (fun a => a.table_areas)
      = [some ⟨6, 6, 612 - 6, 792 - 6⟩, some ⟨6, 6, 612 - 6, 792 - 6⟩,
         some ⟨6, 792 - 6, 612 - 6, 6⟩, some ⟨6, 792 - 6, 612 - 6, 6⟩] ∧
    ((buildAttempts 1 ([(⟨"Table 1", ⟨10, 500, 300, 520⟩⟩ : PageText)].find?
        fun t => tableCapMatch t.text) (some 612) (some 792)).drop 8).map
          (fun a => a.flavor)
      = ["lattice", "stream", "lattice", "stream"] ∧
    (∀ c, (buildAttempts 1 c none none).length = 2 ∧
       ∀ a ∈ buildAttempts 1 c none none, a.table_areas = none) :=
  attempt_list_shape [⟨"Table 1", ⟨10, 500, 300, 520⟩⟩] 1 612 792
    ⟨"Table 1", ⟨10, 500, 300, 520⟩⟩ (by with_unfolding_all rfl)
    (of_decide_eq_true (by with_unfolding_all rfl))
    (of_decide_eq_true (by with_unfolding_all rfl))

/-- C9: both extractors are deterministic — identical page-layout input
and identical collaborator responses yield identical figure lists, table
lists and stats.  The embedded functions consume every collaborator
response as an explicit input, so the output is a function of the listed
inputs alone. -/
theorem extractors_deterministic (i j : FigInput) (ti tj : TabInput)
    (hij : i = j) (htij : ti = tj) :
    runFig i = runFig j ∧ runTab ti = runTab tj := by
  subst hij; subst htij; exact ⟨rfl, rfl⟩

/-- C9 witness: two identical concrete runs. -/
theorem extractors_deterministic_instance :
    runFig ⟨[], fun _ => none, fun _ _ _ => false,
        [⟨1, ⟨0, 0, 100, 100⟩, "", none, none, none⟩], 1, "img", "doc",
        false, 220, 6400, 0.35, 60, 0.3⟩ =
      runFig ⟨[], fun _ => none, fun _ _ _ => false,
        [⟨1, ⟨0, 0, 100, 100⟩, "", none, none, none⟩], 1, "img", "doc",
        false, 220, 6400, 0.35, 60, 0.3⟩ ∧
    runTab ⟨fun _ => Except.ok [], fun _ => Except.ok (), 1, "w", "doc",
        [], none, true⟩ =
      runTab ⟨fun _ => Except.ok [], fun _ => Except.ok (), 1, "w", "doc",
        [], none, true⟩ :=
  extractors_deterministic _ _ _ _ rfl rfl

/-- C5: an unassigned image block is kept as a candidate for a caption
iff all four conditions hold: (a) its bottom edge is at or above the
caption top, (b) the horizontal overlap divided by the caption width is
at least min_cap_overlap, (c) the vertical gap between block bottom and
caption top lies in [0, max_v_gap], and (d) the relative width
difference is at most width_tol.  (The hypothesis hw makes the source's
floor cap_w = max(1e-6, width) coincide with the caption width.) -/
theorem candidate_kept_iff (imgs : List LayoutImg) (cap : CapBlock)
    (assigned : List Nat) (mco mvg wtol : ℚ) (i : Nat)
    (hi : i < imgs.length) (hna : i ∉ assigned)
    (hw : 1 / 1000000 ≤ _w cap.bbox) :
    i ∈ candIdxs imgs cap assigned mco mvg wtol ↔
      ((imgs.getD i default).bbox.y1 ≤ cap.bbox.y0 ∧
       mco ≤ max 0 (min (imgs.getD i default).bbox.x1 cap.bbox.x1
               - max (imgs.getD i default).bbox.x0 cap.bbox.x0) / _w cap.bbox ∧
       (0 ≤ cap.bbox.y0 - (imgs.getD i default).bbox.y1 ∧
        cap.bbox.y0 - (imgs.getD i default).bbox.y1 ≤ mvg) ∧
       abs (_w (imgs.getD i default).bbox - _w cap.bbox) / _w cap.bbox ≤ wtol) := by
  have hcw : capWidth cap = _w cap.bbox := max_eq_right hw
  simp [candIdxs, List.mem_filter, List.mem_range, hi, hna, geomOK, hcw]
  tauto

/-- C5 witness: a 100-wide block directly above a matching caption with
the default thresholds. -/
theorem candidate_kept_iff_instance :
    0 ∈ candIdxs [⟨⟨10, 10, 110, 110⟩, none, none⟩]
        ⟨"Figure 1", ⟨10, 115, 110, 130⟩⟩ [] 0.35 60 0.3 ↔
      (([(⟨⟨10, 10, 110, 110⟩, none, none⟩ : LayoutImg)].getD 0 default).bbox.y1
          ≤ (⟨"Figure 1", ⟨10, 115, 110, 130⟩⟩ : CapBlock).bbox.y0 ∧
       (0.35 : ℚ) ≤ max 0
           (min ([(⟨⟨10, 10, 110, 110⟩, none, none⟩ : LayoutImg)].getD 0 default).bbox.x1
               (⟨"Figure 1", ⟨10, 115, 110, 130⟩⟩ : CapBlock).bbox.x1
             - max ([(⟨⟨10, 10, 110, 110⟩, none, none⟩ : LayoutImg)].getD 0 default).bbox.x0
               (⟨"Figure 1", ⟨10, 115, 110, 130⟩⟩ : CapBlock).bbox.x0)
           / _w (⟨"Figure 1", ⟨10, 115, 110, 130⟩⟩ : CapBlock).bbox ∧
       (0 ≤ (⟨"Figure 1", ⟨10, 115, 110, 130⟩⟩ : CapBlock).bbox.y0
            - ([(⟨⟨10, 10, 110, 110⟩, none, none⟩ : LayoutImg)].getD 0 default).bbox.y1 ∧
        (⟨"Figure 1", ⟨10, 115, 110, 130⟩⟩ : CapBlock).bbox.y0
            - ([(⟨⟨10, 10, 110, 110⟩, none, none⟩ : LayoutImg)].getD 0 default).bbox.y1
          ≤ 60) ∧
       abs (_w ([(⟨⟨10, 10, 110, 110⟩, none, none⟩ : LayoutImg)].getD 0 default).bbox
            - _w (⟨"Figure 1", ⟨10, 115, 110, 130⟩⟩ : CapBlock).bbox)
          / _w (⟨"Figure 1", ⟨10, 115, 110, 130⟩⟩ : CapBlock).bbox ≤ 0.3) :=
  candidate_kept_iff [⟨⟨10, 10, 110, 110⟩, none, none⟩]
    ⟨"Figure 1", ⟨10, 115, 110, 130⟩⟩ [] 0.35 60 0.3 0
    (by decide) (by simp)
    (of_decide_eq_true (by with_unfolding_all rfl))

/-! ### Partition infrastructure for C1 and C10 -/

/-- The candidate list of a caption is duplicate-free. -/
theorem candIdxs_nodup (imgs : List LayoutImg) (cap : CapBlock)
    (assigned : List Nat) (p1 p2 p3 : ℚ) :
    (candIdxs imgs cap assigned p1 p2 p3).Nodup :=
  List.Nodup.filter _ (List.nodup_range _)

/-- A candidate index is in range and unassigned. -/
theorem candIdxs_mem_facts (imgs : List LayoutImg) (cap : CapBlock)
    (assigned : List Nat) (p1 p2 p3 : ℚ) (i : Nat)
    (h : i ∈ candIdxs imgs cap assigned p1 p2 p3) :
    i < imgs.length ∧ i ∉ assigned := by
  simp only [candIdxs, List.mem_filter, List.mem_range, Bool.and_eq_true,
    Bool.not_eq_true', decide_eq_false_iff_not] at h
  exact ⟨h.1, h.2.1⟩

/-- One grouping step preserves the loop invariant: the concatenation of
the emitted figures' parts equals the assigned list, which is
duplicate-free and within range. -/
theorem groupStep_inv (imgs : List LayoutImg) (safeRect : BBox → Option BBox)
    (rasterOk : BBox → Nat → String → Bool) (pno : Nat) (img_dir stem : String)
    (rf : Bool) (dpi : Nat) (mco mvg wtol : ℚ)
    (st : List Nat × List Figure) (cap : CapBlock)
    (h1 : (st.2.map Figure.parts).flatten = st.1)
    (h2 : st.1.Nodup) (h3 : ∀ x ∈ st.1, x < imgs.length) :
    (((groupStep imgs safeRect rasterOk pno img_dir stem rf dpi mco mvg wtol
        st cap).2.map Figure.parts).flatten =
      (groupStep imgs safeRect rasterOk pno img_dir stem rf dpi mco mvg wtol
        st cap).1) ∧
    (groupStep imgs safeRect rasterOk pno img_dir stem rf dpi mco mvg wtol
        st cap).1.Nodup ∧
    (∀ x ∈ (groupStep imgs safeRect rasterOk pno img_dir stem rf dpi mco mvg
        wtol st cap).1, x < imgs.length) := by
  by_cases hc : (candIdxs imgs cap st.1 mco mvg wtol).isEmpty
  · simp only [groupStep, hc, if_pos]
    exact ⟨h1, h2, h3⟩
  · simp only [groupStep, hc, Bool.false_eq_true, if_neg, not_false_iff]
    refine ⟨?_, ?_, ?_⟩
    · simp [List.map_append, List.flatten_append, h1]
    · rw [List.nodup_append]
      refine ⟨h2, candIdxs_nodup _ _ _ _ _ _, ?_⟩
      intro x hx hx'
      exact (candIdxs_mem_facts _ _ _ _ _ _ _ hx').2 hx
    · intro x hx
      rcases List.mem_append.mp hx with h | h
      · exact h3 x h
      · exact (candIdxs_mem_facts _ _ _ _ _ _ _ h).1

/-- The caption fold preserves the loop invariant. -/
theorem groupFold_inv (imgs : List LayoutImg) (safeRect : BBox → Option BBox)
    (rasterOk : BBox → Nat → String → Bool) (pno : Nat) (img_dir stem : String)
    (rf : Bool) (dpi : Nat) (mco mvg wtol : ℚ) (caps : List CapBlock) :
    ∀ st : List Nat × List Figure,
      (st.2.map Figure.parts).flatten = st.1 → st.1.Nodup →
      (∀ x ∈ st.1, x < imgs.length) →
      (((caps.foldl (groupStep imgs safeRect rasterOk pno img_dir stem rf dpi
          mco mvg wtol) st).2.map Figure.parts).flatten =
        (caps.foldl (groupStep imgs safeRect rasterOk pno img_dir stem rf dpi
          mco mvg wtol) st).1) ∧
      (caps.foldl (groupStep imgs safeRect rasterOk pno img_dir stem rf dpi
          mco mvg wtol) st).1.Nodup ∧
      (∀ x ∈ (caps.foldl (groupStep imgs safeRect rasterOk pno img_dir stem rf
          dpi mco mvg wtol) st).1, x < imgs.length) := by
  induction caps with
  | nil => intro st h1 h2 h3; exact ⟨h1, h2, h3⟩
  | cons c cs ih =>
      intro st h1 h2 h3
      have h := groupStep_inv imgs safeRect rasterOk pno img_dir stem rf dpi
        mco mvg wtol st c h1 h2 h3
      exact ih _ h.1 h.2.1 h.2.2

/-- The parts list of a leftover figure is the singleton of its index. -/
theorem leftoverFig_parts (imgs : List LayoutImg) (safeRect : BBox → Option BBox)
    (rasterOk : BBox → Nat → String → Bool) (pno : Nat) (img_dir stem : String)
    (rf : Bool) (dpi : Nat) (i : Nat) :
    (leftoverFig imgs safeRect rasterOk pno img_dir stem rf dpi i).parts = [i] :=
  rfl

/-- Flattening the parts of the leftover figures gives back the leftover
index list. -/
theorem leftover_parts_flatten (imgs : List LayoutImg)
    (safeRect : BBox → Option BBox) (rasterOk : BBox → Nat → String → Bool)
    (pno : Nat) (img_dir stem : String) (rf : Bool) (dpi : Nat)
    (l : List Nat) :
    (((l.map (leftoverFig imgs safeRect rasterOk pno img_dir stem rf dpi)).map
        Figure.parts).flatten) = l := by
  induction l with
  | nil => rfl
  | cons i is ih =>
      simp only [List.map_cons, List.flatten_cons, leftoverFig_parts]
      rw [ih]
      rfl

/-- C1: every layout image block that enters grouping (i.e. every index
of the collected layout-image list) appears in exactly one emitted
figure's parts list: counting its occurrences across the concatenation
of all figures' parts gives 1 — no duplicates across figures, and no
omissions (leftovers become singleton figures). -/
theorem extract_image_blocks_partition
    (pathsByXref : List (Int × Option String)) (safeRect : BBox → Option BBox)
    (rasterOk : BBox → Nat → String → Bool) (blocks : List PBlock)
    (pno : Nat) (img_dir stem : String) (rf : Bool) (dpi : Nat)
    (minA mco mvg wtol : ℚ) (i : Nat)
    (hi : i < (collectLayoutImgs pathsByXref blocks minA).length) :
    ((((extract_image_blocks pathsByXref safeRect rasterOk blocks pno img_dir
        stem rf dpi minA mco mvg wtol).1).map Figure.parts).flatten).count i
      = 1 := by
  simp only [extract_image_blocks]
  set imgs := collectLayoutImgs pathsByXref blocks minA with himgs
  set st := (collectCaptions blocks).foldl
    (groupStep imgs safeRect rasterOk pno img_dir stem rf dpi mco mvg wtol)
    ([], []) with hst
  obtain ⟨hflat, hnd, hlt⟩ := groupFold_inv imgs safeRect rasterOk pno img_dir
    stem rf dpi mco mvg wtol (collectCaptions blocks) ([], []) rfl
    List.nodup_nil (by simp)
  rw [← hst] at hflat hnd hlt
  rw [List.map_append, List.flatten_append, hflat,
    leftover_parts_flatten, List.count_append]
  by_cases hmem : i ∈ st.1
  · rw [List.count_eq_one_of_mem hnd hmem, List.count_eq_zero_of_not_mem]
    · intro hcon
      have := (List.mem_filter.mp hcon).2
      simp [hmem] at this
  · rw [List.count_eq_zero_of_not_mem hmem,
      List.count_eq_one_of_mem (List.Nodup.filter _ (List.nodup_range _))]
    exact List.mem_filter.mpr ⟨List.mem_range.mpr hi, by simp [hmem]⟩

/-- C1 witness: one large uncaptioned image block yields a single
leftover figure containing index 0 exactly once. -/
theorem extract_image_blocks_partition_instance :
    0 < (collectLayoutImgs []
        [⟨1, ⟨0, 0, 100, 100⟩, "", none, none, none⟩] 6400).length ∧
    ((((extract_image_blocks [] (fun _ => none) (fun _ _ _ => false)
        [⟨1, ⟨0, 0, 100, 100⟩, "", none, none, none⟩] 1 "img" "doc"
        false 220 6400 0.35 60 0.3).1).map Figure.parts).flatten).count 0
      = 1 :=
  ⟨of_decide_eq_true (by with_unfolding_all rfl),
   extract_image_blocks_partition [] (fun _ => none) (fun _ _ _ => false)
     [⟨1, ⟨0, 0, 100, 100⟩, "", none, none, none⟩] 1 "img" "doc"
     false 220 6400 0.35 60 0.3 0
     (of_decide_eq_true (by with_unfolding_all rfl))⟩

/-- C10: a layout image block whose bounding-box area (floored widths
and heights) is below min_img_area never enters grouping: every
collected layout image has area at least min_img_area, the layout_blocks
stat counts exactly the type-1 blocks meeting the area threshold (small
blocks are not counted), and every index in any emitted figure's parts
refers to the collected (area-filtered) list. -/
theorem small_blocks_excluded
    (pathsByXref : List (Int × Option String)) (safeRect : BBox → Option BBox)
    (rasterOk : BBox → Nat → String → Bool) (blocks : List PBlock)
    (pno : Nat) (img_dir stem : String) (rf : Bool) (dpi : Nat)
    (minA mco mvg wtol : ℚ) :
    (∀ ib ∈ collectLayoutImgs pathsByXref blocks minA,
       minA ≤ _w ib.bbox * _h ib.bbox) ∧
    ((extract_image_blocks pathsByXref safeRect rasterOk blocks pno img_dir
        stem rf dpi minA mco mvg wtol).2.layout_blocks
      = (blocks.filter fun b =>
          b.btype == 1 && decide (minA ≤ _w b.bbox * _h b.bbox)).length) ∧
    (∀ f ∈ (extract_image_blocks pathsByXref safeRect rasterOk blocks pno
        img_dir stem rf dpi minA mco mvg wtol).1,
       ∀ i ∈ f.parts,
         i < (collectLayoutImgs pathsByXref blocks minA).length) := by
  refine ⟨?_, ?_, ?_⟩
  · intro ib hib
    simp only [collectLayoutImgs, List.mem_map, List.mem_filter,
      Bool.and_eq_true, beq_iff_eq, decide_eq_true_eq] at hib
    obtain ⟨b, ⟨_, hbb⟩, hb3⟩ := hib
    rw [← hb3]
    exact hbb.2
  · simp [extract_image_blocks, collectLayoutImgs]
  · intro f hf i hif
    simp only [extract_image_blocks] at hf
    set imgs := collectLayoutImgs pathsByXref blocks minA with himgs
    set st := (collectCaptions blocks).foldl
      (groupStep imgs safeRect rasterOk pno img_dir stem rf dpi mco mvg wtol)
      ([], []) with hst
    obtain ⟨hflat, hnd, hlt⟩ := groupFold_inv imgs safeRect rasterOk pno
      img_dir stem rf dpi mco mvg wtol (collectCaptions blocks) ([], []) rfl
      List.nodup_nil (by simp)
    rw [← hst] at hflat hnd hlt
    have hin : i ∈ ((st.2 ++ ((List.range imgs.length).filter fun k =>
        !(decide (k ∈ st.1))).map (leftoverFig imgs safeRect rasterOk pno
          img_dir stem rf dpi)).map Figure.parts).flatten :=
      List.mem_flatten.mpr ⟨f.parts, List.mem_map_of_mem _ hf, hif⟩
    rw [List.map_append, List.flatten_append, hflat,
      leftover_parts_flatten] at hin
    rcases List.mem_append.mp hin with h | h
    · exact hlt i h
    · exact List.mem_range.mp (List.mem_filter.mp h).1

/-! ### Attempt-loop infrastructure for C2, C4, C6 and C8 -/

/-- A candidate list with no accepted candidate is processed without any
effect: no record, no CSV write, no raise. -/
theorem processCands_countP_zero (toCsv : String → Except String Unit)
    (save_csv : Bool) (workdir stem : String) (pno : Nat) (flavor : String) :
    ∀ (cands : List TCand) (i : Nat) (tbls : List TableRec) (saved acc : Nat),
      cands.countP acceptCand = 0 →
      processCands toCsv save_csv workdir stem pno flavor cands i tbls saved acc
        = (tbls, saved, acc, none) := by
  intro cands
  induction cands with
  | nil => intro i tbls saved acc _; rfl
  | cons t ts ih =>
      intro i tbls saved acc h
      have hnt : acceptCand t = false := by
        have := List.countP_eq_zero.mp h t (List.mem_cons_self t ts)
        simpa using this
      have hts : ts.countP acceptCand = 0 :=
        List.countP_eq_zero.mpr fun a ha =>
          List.countP_eq_zero.mp h a (List.mem_cons_of_mem _ ha)
      simp only [processCands, hnt, Bool.false_eq_true, if_neg,
        not_false_iff]
      exact ih (i + 1) tbls saved acc hts

/-- When candidate processing returns without a raise, the accepted
count grows by exactly the number of candidates passing the filter. -/
theorem processCands_acc (toCsv : String → Except String Unit)
    (save_csv : Bool) (workdir stem : String) (pno : Nat) (flavor : String) :
    ∀ (cands : List TCand) (i : Nat) (tbls : List TableRec) (saved acc : Nat)
      (tbls2 : List TableRec) (saved2 acc2 : Nat),
      processCands toCsv save_csv workdir stem pno flavor cands i tbls saved acc
        = (tbls2, saved2, acc2, none) →
      acc2 = acc + cands.countP acceptCand := by
  intro cands
  induction cands with
  | nil =>
      intro i tbls saved acc tbls2 saved2 acc2 h
      simp only [processCands, Prod.mk.injEq] at h
      simp [← h.2.2.1]
  | cons t ts ih =>
      intro i tbls saved acc tbls2 saved2 acc2 h
      by_cases ht : acceptCand t = true
      · rw [List.countP_cons_of_pos _ _ ht]
        by_cases hs : save_csv = true
        · subst hs
          rcases hcsv : toCsv (csvName workdir stem pno i flavor) with e | u
          · simp only [processCands, ht, if_pos, hcsv] at h
            simp at h
          · simp only [processCands, ht, if_pos, hcsv] at h
            have := ih (i + 1) _ _ (acc + 1) tbls2 saved2 acc2 h
            omega
        · have hs2 : save_csv = false := by simpa using hs
          subst hs2
          simp only [processCands, ht, if_pos, Bool.false_eq_true, if_neg,
            not_false_iff] at h
          have := ih (i + 1) _ saved (acc + 1) tbls2 saved2 acc2 h
          omega
      · have ht2 : acceptCand t = false := by simpa using ht
        rw [List.countP_cons_of_neg _ _ (by simp [ht2])]
        simp only [processCands, ht2, Bool.false_eq_true, if_neg,
          not_false_iff] at h
        exact ih (i + 1) tbls saved acc tbls2 saved2 acc2 h

/-- Every record appended by candidate processing comes from an accepted
candidate of the processed list, with matching row and column counts,
page number, engine tag and flavor. -/
theorem processCands_records (toCsv : String → Except String Unit)
    (save_csv : Bool) (workdir stem : String) (pno : Nat) (flavor : String) :
    ∀ (cands : List TCand) (i : Nat) (tbls : List TableRec) (saved acc : Nat),
      ∃ new,
        (processCands toCsv save_csv workdir stem pno flavor cands i tbls
            saved acc).1 = tbls ++ new ∧
        ∀ r ∈ new, ∃ c ∈ cands, acceptCand c = true ∧
          r.nrows = c.nrows ∧ r.ncols = c.ncols ∧ r.page_no = pno ∧
          r.engine = "camelot" ∧ r.flavor = flavor := by
  intro cands
  induction cands with
  | nil =>
      intro i tbls saved acc
      exact ⟨[], by simp [processCands], by simp⟩
  | cons t ts ih =>
      intro i tbls saved acc
      by_cases ht : acceptCand t = true
      · by_cases hs : save_csv = true
        · subst hs
          rcases hcsv : toCsv (csvName workdir stem pno i flavor) with e | u
          · refine ⟨[], ?_, by simp⟩
            simp [processCands, ht, hcsv]
          · obtain ⟨new, hnew, hprop⟩ := ih (i + 1)
              (tbls ++ [⟨pno, i, "camelot", flavor, t.nrows, t.ncols,
                some (csvName workdir stem pno i flavor)⟩]) (saved + 1) (acc + 1)
            refine ⟨⟨pno, i, "camelot", flavor, t.nrows, t.ncols,
              some (csvName workdir stem pno i flavor)⟩ :: new, ?_, ?_⟩
            · simp only [processCands, ht, if_pos, hcsv]
              rw [hnew, List.append_assoc, List.singleton_append]
            · intro r hr
              rcases List.mem_cons.mp hr with h | h
              · subst h
                exact ⟨t, List.mem_cons_self _ _, ht, rfl, rfl, rfl, rfl, rfl⟩
              · obtain ⟨c, hc, hrest⟩ := hprop r h
                exact ⟨c, List.mem_cons_of_mem _ hc, hrest⟩
        · have hs2 : save_csv = false := by simpa using hs
          subst hs2
          obtain ⟨new, hnew, hprop⟩ := ih (i + 1)
            (tbls ++ [⟨pno, i, "camelot", flavor, t.nrows, t.ncols, none⟩])
            saved (acc + 1)
          refine ⟨⟨pno, i, "camelot", flavor, t.nrows, t.ncols, none⟩ :: new,
            ?_, ?_⟩
          · simp only [processCands, ht, if_pos, Bool.false_eq_true,
              if_neg, not_false_iff]
            rw [hnew, List.append_assoc, List.singleton_append]
          · intro r hr
            rcases List.mem_cons.mp hr with h | h
            · subst h
              exact ⟨t, List.mem_cons_self _ _, ht, rfl, rfl, rfl, rfl, rfl⟩
            · obtain ⟨c, hc, hrest⟩ := hprop r h
              exact ⟨c, List.mem_cons_of_mem _ hc, hrest⟩
      · have ht2 : acceptCand t = false := by simpa using ht
        obtain ⟨new, hnew, hprop⟩ := ih (i + 1) tbls saved acc
        refine ⟨new, ?_, ?_⟩
        · simp only [processCands, ht2, Bool.false_eq_true, if_neg,
            not_false_iff]
          exact hnew
        · intro r hr
          obtain ⟨c, hc, hrest⟩ := hprop r hr
          exact ⟨c, List.mem_cons_of_mem _ hc, hrest⟩

/-- An attempt whose engine result has no accepted candidate only
extends the tried list and continues with the remaining attempts. -/
theorem runAttempts_zero_step (engine : TableAttempt → Except String (List TCand))
    (toCsv : String → Except String Unit) (save_csv : Bool)
    (workdir stem : String) (pno : Nat) (a : TableAttempt)
    (rest : List TableAttempt) (st : RunSt) (l : List TCand)
    (he : engine a = Except.ok l) (hz : l.countP acceptCand = 0) :
    runAttempts engine toCsv save_csv workdir stem pno (a :: rest) st
      = runAttempts engine toCsv save_csv workdir stem pno rest
          { st with tried := st.tried ++ [tryDesc a] } := by
  cases l with
  | nil => simp [runAttempts, he]
  | cons x xs =>
      simp only [runAttempts, he]
      rw [processCands_countP_zero toCsv save_csv workdir stem pno a.flavor
        (x :: xs) 1 _ _ 0 hz]
      simp

/-- A run over a prefix of attempts that all return engine results with
no accepted candidate reduces to the run over the remaining attempts,
with the prefix recorded in the tried list. -/
theorem runAttempts_zero_chain (engine : TableAttempt → Except String (List TCand))
    (toCsv : String → Except String Unit) (save_csv : Bool)
    (workdir stem : String) (pno : Nat) (rest : List TableAttempt) :
    ∀ (l1 : List TableAttempt) (st : RunSt),
      (∀ b ∈ l1, ∃ l, engine b = Except.ok l ∧ l.countP acceptCand = 0) →
      runAttempts engine toCsv save_csv workdir stem pno (l1 ++ rest) st
        = runAttempts engine toCsv save_csv workdir stem pno rest
            { st with tried := st.tried ++ l1.map tryDesc } := by
  intro l1
  induction l1 with
  | nil => intro st _; simp
  | cons b bs ih =>
      intro st h
      obtain ⟨l, he, hz⟩ := h b (List.mem_cons_self b bs)
      rw [List.cons_append, runAttempts_zero_step engine toCsv save_csv
        workdir stem pno b (bs ++ rest) st l he hz,
        ih _ fun x hx => h x (List.mem_cons_of_mem _ hx)]
      simp

/-- An attempt whose engine raises ends the run: the exception repr is
recorded as the diagnostic and the remaining attempts are dropped. -/
theorem runAttempts_error_step (engine : TableAttempt → Except String (List TCand))
    (toCsv : String → Except String Unit) (save_csv : Bool)
    (workdir stem : String) (pno : Nat) (a : TableAttempt)
    (rest : List TableAttempt) (st : RunSt) (e : String)
    (he : engine a = Except.error e) :
    runAttempts engine toCsv save_csv workdir stem pno (a :: rest) st
      = { st with tried := st.tried ++ [tryDesc a],
                  error := some ("Camelot failed/skipped: " ++ e) } := by
  simp [runAttempts, he]

/-- An attempt with at least one accepted candidate (or a CSV raise
among accepted candidates) ends the run: the remaining attempts are
never consulted. -/
theorem runAttempts_stop_step (engine : TableAttempt → Except String (List TCand))
    (toCsv : String → Except String Unit) (save_csv : Bool)
    (workdir stem : String) (pno : Nat) (a : TableAttempt)
    (rest : List TableAttempt) (st : RunSt) (l : List TCand)
    (he : engine a = Except.ok l) (hpos : 1 ≤ l.countP acceptCand) :
    runAttempts engine toCsv save_csv workdir stem pno (a :: rest) st
      = runAttempts engine toCsv save_csv workdir stem pno [a] st := by
  have hlne : l ≠ [] := by
    intro hl
    subst hl
    simp at hpos
  have hlen : ¬ l.length = 0 := by
    simpa [List.length_eq_zero] using hlne
  simp only [runAttempts, he, hlen, if_neg, not_false_iff]
  rcases hres : processCands toCsv save_csv workdir stem pno a.flavor l 1
      ({ st with tried := st.tried ++ [tryDesc a] } : RunSt).tables
      ({ st with tried := st.tried ++ [tryDesc a] } : RunSt).saved_csv 0 with
    ⟨tbls, saved, acc, err⟩
  cases err with
  | none =>
      have hacc : acc = 0 + l.countP acceptCand :=
        processCands_acc toCsv save_csv workdir stem pno a.flavor l 1 _ _ 0
          tbls saved acc hres
      have : ¬ acc = 0 := by omega
      simp [this]
  | some e => simp

/-- Running a single attempt always records exactly its description in
the tried list, whatever the engine and CSV oracles do. -/
theorem runAttempts_single_tried (engine : TableAttempt → Except String (List TCand))
    (toCsv : String → Except String Unit) (save_csv : Bool)
    (workdir stem : String) (pno : Nat) (a : TableAttempt) (st : RunSt) :
    (runAttempts engine toCsv save_csv workdir stem pno [a] st).tried
      = st.tried ++ [tryDesc a] := by
  rcases he : engine a with e | l
  · rw [runAttempts_error_step engine toCsv save_csv workdir stem pno a [] st
      e he]
  · cases l with
    | nil => simp [runAttempts, he]
    | cons x xs =>
        simp only [runAttempts, he, List.length_cons, Nat.succ_ne_zero,
          if_neg, not_false_iff]
        rcases hres : processCands toCsv save_csv workdir stem pno a.flavor
            (x :: xs) 1
            ({ st with tried := st.tried ++ [tryDesc a] } : RunSt).tables
            ({ st with tried := st.tried ++ [tryDesc a] } : RunSt).saved_csv 0
          with ⟨tbls, saved, acc, err⟩
        cases err with
        | none =>
            by_cases hacc : acc = 0 <;> simp [hacc, runAttempts]
        | some e => simp

/-- Every record in the run output comes from an accepted candidate
returned by the engine for one of the attempts. -/
theorem runAttempts_records (engine : TableAttempt → Except String (List TCand))
    (toCsv : String → Except String Unit) (save_csv : Bool)
    (workdir stem : String) (pno : Nat) :
    ∀ (attempts : List TableAttempt) (st : RunSt),
      ∃ new,
        (runAttempts engine toCsv save_csv workdir stem pno attempts st).tables
          = st.tables ++ new ∧
        ∀ r ∈ new, ∃ a ∈ attempts, ∃ l, engine a = Except.ok l ∧
          ∃ c ∈ l, acceptCand c = true ∧ r.nrows = c.nrows ∧
            r.ncols = c.ncols ∧ r.page_no = pno ∧ r.engine = "camelot" := by
  intro attempts
  induction attempts with
  | nil => intro st; exact ⟨[], by simp [runAttempts], by simp⟩
  | cons a rest ih =>
      intro st
      rcases he : engine a with e | l
      · refine ⟨[], ?_, by simp⟩
        rw [runAttempts_error_step engine toCsv save_csv workdir stem pno a
          rest st e he]
        simp
      · cases l with
        | nil =>
            obtain ⟨new, hnew, hprop⟩ :=
              ih ({ st with tried := st.tried ++ [tryDesc a] } : RunSt)
            refine ⟨new, ?_, ?_⟩
            · simpa [runAttempts, he] using hnew
            · intro r hr
              obtain ⟨b, hb, rest2⟩ := hprop r hr
              exact ⟨b, List.mem_cons_of_mem _ hb, rest2⟩
        | cons x xs =>
            obtain ⟨new1, hnew1, hprop1⟩ := processCands_records toCsv
              save_csv workdir stem pno a.flavor (x :: xs) 1 st.tables
              st.saved_csv 0
            rcases hres : processCands toCsv save_csv workdir stem pno
                a.flavor (x :: xs) 1 st.tables st.saved_csv 0 with
              ⟨tbls, saved, acc, err⟩
            rw [hres] at hnew1
            have hstep : runAttempts engine toCsv save_csv workdir stem pno
                (a :: rest) st
              = (match (tbls, saved, acc, err) with
                 | (tbls, saved, _, some e) =>
                   { tables := tbls,
                     tried := st.tried ++ [tryDesc a],
                     found := st.found, saved_csv := saved,
                     error := some ("Camelot failed/skipped: " ++ e) }
                 | (tbls, saved, acc, none) =>
                   if acc = 0 then
                     runAttempts engine toCsv save_csv workdir stem pno rest
                       { tables := tbls,
                         tried := st.tried ++ [tryDesc a],
                         found := st.found, saved_csv := saved,
                         error := st.error }
                   else
                     { tables := tbls,
                       tried := st.tried ++ [tryDesc a],
                       found := st.found + acc, saved_csv := saved,
                       error := st.error }) := by
              simp only [runAttempts, he, List.length_cons, Nat.succ_ne_zero,
                if_neg, not_false_iff]
              rw [hres]
            cases err with
            | some e =>
                refine ⟨new1, ?_, ?_⟩
                · rw [hstep]
                  exact hnew1
                · intro r hr
                  obtain ⟨c, hc, hacc, hr1, hr2, hr3, hr4, _⟩ := hprop1 r hr
                  exact ⟨a, List.mem_cons_self a rest, x :: xs, he, c, hc,
                    hacc, hr1, hr2, hr3, hr4⟩
            | none =>
                by_cases hacc0 : acc = 0
                · subst hacc0
                  obtain ⟨new2, hnew2, hprop2⟩ := ih
                    ({ tables := tbls, tried := st.tried ++ [tryDesc a],
                       found := st.found, saved_csv := saved,
                       error := st.error } : RunSt)
                  refine ⟨new1 ++ new2, ?_, ?_⟩
                  · have h1 : tbls = st.tables ++ new1 := hnew1
                    rw [hstep]
                    simp only [if_pos]
                    rw [hnew2]
                    show tbls ++ new2 = st.tables ++ (new1 ++ new2)
                    rw [h1, List.append_assoc]
                  · intro r hr
                    rcases List.mem_append.mp hr with h | h
                    · obtain ⟨c, hc, hacc, hr1, hr2, hr3, hr4, _⟩ :=
                        hprop1 r h
                      exact ⟨a, List.mem_cons_self a rest, x :: xs, he, c, hc,
                        hacc, hr1, hr2, hr3, hr4⟩
                    · obtain ⟨b, hb, rest2⟩ := hprop2 r h
                      exact ⟨b, List.mem_cons_of_mem _ hb, rest2⟩
                · refine ⟨new1, ?_, ?_⟩
                  · rw [hstep]
                    simp only [hacc0, if_neg, not_false_iff]
                    exact hnew1
                  · intro r hr
                    obtain ⟨c, hc, hacc, hr1, hr2, hr3, hr4, _⟩ := hprop1 r hr
                    exact ⟨a, List.mem_cons_self a rest, x :: xs, he, c, hc,
                      hacc, hr1, hr2, hr3, hr4⟩

/-- C2: every table record emitted by extract_tables_for_page comes from
an engine candidate with at least 2 rows, at least 2 columns and a digit
somewhere in its concatenated cell text; the record's row and column
counts are those of its source candidate, so they are at least 2 as
well.  No candidate violating the acceptance filter is ever recorded. -/
theorem extract_tables_acceptance
    (engine : TableAttempt → Except String (List TCand))
    (toCsv : String → Except String Unit) (pno : Nat) (workdir stem : String)
    (page_texts : List PageText) (page : Option (ℚ × ℚ)) (save_csv : Bool)
    (r : TableRec)
    (hr : r ∈ (extract_tables_for_page engine toCsv pno workdir stem
        page_texts page save_csv).1) :
    2 ≤ r.nrows ∧ 2 ≤ r.ncols ∧
    hasSourceCand engine
      (buildAttempts pno (page_texts.find? fun t => tableCapMatch t.text)
        (page.map Prod.fst) (page.map Prod.snd)) r := by
  obtain ⟨new, hnew, hprop⟩ := runAttempts_records engine toCsv save_csv
    workdir stem pno
    (buildAttempts pno (page_texts.find? fun t => tableCapMatch t.text)
      (page.map Prod.fst) (page.map Prod.snd)) ⟨[], [], 0, 0, none⟩
  have hr2 : r ∈ (⟨[], [], 0, 0, none⟩ : RunSt).tables ++ new := by
    rw [← hnew]
    exact hr
  rw [List.nil_append] at hr2
  obtain ⟨a, ha, l, hel, c, hc, hacc, h1, h2, _, _⟩ := hprop r hr2
  have haccs := hacc
  simp only [acceptCand, Bool.and_eq_true, decide_eq_true_eq] at haccs
  refine ⟨?_, ?_, a, ha, l, hel, c, hc, haccs.1.1, haccs.1.2, haccs.2,
    h1, h2⟩
  · rw [h1]
    exact haccs.1.1
  · rw [h2]
    exact haccs.1.2

/-- C2 witness: a concrete run whose single emitted record satisfies the
acceptance invariant. -/
theorem extract_tables_acceptance_instance :
    2 ≤ (⟨1, 1, "camelot", "lattice", 2, 2, none⟩ : TableRec).nrows ∧
    2 ≤ (⟨1, 1, "camelot", "lattice", 2, 2, none⟩ : TableRec).ncols ∧
    hasSourceCand
      (fun a => if a.flavor == "lattice" then
          Except.ok ([⟨2, 2, [["1", "a"], ["b", "c"]]⟩] : List TCand)
        else Except.ok [])
      (buildAttempts 1 (([] : List PageText).find? fun t => tableCapMatch t.text)
        ((none : Option (ℚ × ℚ)).map Prod.fst)
        ((none : Option (ℚ × ℚ)).map Prod.snd))
      ⟨1, 1, "camelot", "lattice", 2, 2, none⟩ :=
  extract_tables_acceptance
    (fun a => if a.flavor == "lattice" then
        Except.ok ([⟨2, 2, [["1", "a"], ["b", "c"]]⟩] : List TCand)
      else Except.ok [])
    (fun _ => Except.ok ()) 1 "w" "doc" [] none false
    ⟨1, 1, "camelot", "lattice", 2, 2, none⟩
    (of_decide_eq_true (by with_unfolding_all rfl))

/-- C6: once an attempt's engine result contains at least one accepted
candidate, the run is independent of all later attempts (they are never
executed) and the tried stats stop at that attempt: the run over the
full list equals the run truncated right after the successful attempt,
and the tried list records exactly the attempts up to and including
it. -/
theorem first_success_stops
    (engine : TableAttempt → Except String (List TCand))
    (toCsv : String → Except String Unit) (save_csv : Bool)
    (workdir stem : String) (pno : Nat)
    (l1 : List TableAttempt) (a : TableAttempt) (l2 : List TableAttempt)
    (st : RunSt)
    (h1 : ∀ b ∈ l1, ∃ l, engine b = Except.ok l ∧ l.countP acceptCand = 0)
    (h2 : ∃ l, engine a = Except.ok l ∧ 1 ≤ l.countP acceptCand) :
    runAttempts engine toCsv save_csv workdir stem pno (l1 ++ a :: l2) st
      = runAttempts engine toCsv save_csv workdir stem pno (l1 ++ [a]) st ∧
    (runAttempts engine toCsv save_csv workdir stem pno (l1 ++ a :: l2)
        st).tried = st.tried ++ (l1 ++ [a]).map tryDesc := by
  obtain ⟨l, he, hpos⟩ := h2
  have e1 := runAttempts_zero_chain engine toCsv save_csv workdir stem pno
    (a :: l2) l1 st h1
  have e2 := runAttempts_stop_step engine toCsv save_csv workdir stem pno a
    l2 ({ st with tried := st.tried ++ l1.map tryDesc } : RunSt) l he hpos
  have e3 := runAttempts_zero_chain engine toCsv save_csv workdir stem pno
    [a] l1 st h1
  refine ⟨by rw [e1, e2, e3], ?_⟩
  rw [e1, e2, runAttempts_single_tried]
  simp [List.map_append]

/-- C6 witness: with the first attempt succeeding, appending a second
attempt does not change the run, and only the first attempt is tried. -/
theorem first_success_stops_instance :
    runAttempts
        (fun a => if a.flavor == "lattice" then
            Except.ok ([⟨2, 2, [["1", "a"], ["b", "c"]]⟩] : List TCand)
          else Except.ok [])
        (fun _ => Except.ok ()) false ("w") ("doc") 1
        ([] ++ latticeAttempt 1 none ("no-area,line_scale=40") ::
          [streamAttempt 1 none ("no-area,row/col tol")]) ⟨[], [], 0, 0, none⟩
      = runAttempts
          (fun a => if a.flavor == "lattice" then
              Except.ok ([⟨2, 2, [["1", "a"], ["b", "c"]]⟩] : List TCand)
            else Except.ok [])
          (fun _ => Except.ok ()) false ("w") ("doc") 1
          ([] ++ [latticeAttempt 1 none ("no-area,line_scale=40")])
          ⟨[], [], 0, 0, none⟩ ∧
    (runAttempts
        (fun a => if a.flavor == "lattice" then
            Except.ok ([⟨2, 2, [["1", "a"], ["b", "c"]]⟩] : List TCand)
          else Except.ok [])
        (fun _ => Except.ok ()) false ("w") ("doc") 1
        ([] ++ latticeAttempt 1 none ("no-area,line_scale=40") ::
          [streamAttempt 1 none ("no-area,row/col tol")])
        ⟨[], [], 0, 0, none⟩).tried
      = (⟨[], [], 0, 0, none⟩ : RunSt).tried ++
          ([] ++ [latticeAttempt 1 none ("no-area,line_scale=40")]).map tryDesc :=
  first_success_stops
    (fun a => if a.flavor == "lattice" then
        Except.ok ([⟨2, 2, [["1", "a"], ["b", "c"]]⟩] : List TCand)
      else Except.ok [])
    (fun _ => Except.ok ()) false ("w") ("doc") 1
    [] (latticeAttempt 1 none ("no-area,line_scale=40"))
    [streamAttempt 1 none ("no-area,row/col tol")] ⟨[], [], 0, 0, none⟩
    (by simp)
    ⟨[⟨2, 2, [["1", "a"], ["b", "c"]]⟩], by with_unfolding_all rfl, by decide⟩

/-- The engine-failure diagnostic is never the empty string. -/
theorem camelotMsg_ne_empty (e : String) :
    ("Camelot failed/skipped: " ++ e) ≠ "" := by
  intro h
  have h2 := congrArg String.data h
  rw [String.data_append] at h2
  have h3 := (List.append_eq_nil.mp h2).1
  exact absurd h3 (by decide)

/-- The engine-failure diagnostic is distinct from the no-tables
diagnostic, whatever the exception text. -/
theorem camelotMsg_ne_noTables (e : String) :
    ("Camelot failed/skipped: " ++ e) ≠ "no tables detected on this page" := by
  intro h
  have h2 := congrArg String.data h
  rw [String.data_append] at h2
  have e1 : ("Camelot failed/skipped: ").data
      = 'C' :: ("amelot failed/skipped: ").data := by decide
  have e2 : ("no tables detected on this page").data
      = 'n' :: ("o tables detected on this page").data := by decide
  rw [e1, e2] at h2
  injection h2 with h3 _
  exact absurd h3 (by decide)

/-- C8: extract_tables_for_page never lets an engine exception escape.
First part: if the attempts preceding some attempt all return results
with no accepted candidate and that attempt's engine call raises, the
returned table list is empty, the stats record the exception diagnostic
(distinct from the no-tables diagnostic), and the tried list stops at
the raising attempt.  Second part: if every attempt returns a result
with no accepted candidate and no exception occurs, the no-tables
diagnostic is recorded and the table list is empty. -/
theorem engine_failure_isolated
    (engine : TableAttempt → Except String (List TCand))
    (toCsv : String → Except String Unit) (pno : Nat) (workdir stem : String)
    (page_texts : List PageText) (page : Option (ℚ × ℚ)) (save_csv : Bool) :
    (∀ (l1 : List TableAttempt) (a : TableAttempt) (l2 : List TableAttempt)
        (e : String),
      buildAttempts pno (page_texts.find? fun t => tableCapMatch t.text)
          (page.map Prod.fst) (page.map Prod.snd) = l1 ++ a :: l2 →
      (∀ b ∈ l1, ∃ l, engine b = Except.ok l ∧ l.countP acceptCand = 0) →
      engine a = Except.error e →
      (extract_tables_for_page engine toCsv pno workdir stem page_texts page
          save_csv).1 = [] ∧
      (extract_tables_for_page engine toCsv pno workdir stem page_texts page
          save_csv).2.error = some ("Camelot failed/skipped: " ++ e) ∧
      ("Camelot failed/skipped: " ++ e) ≠ "no tables detected on this page" ∧
      (extract_tables_for_page engine toCsv pno workdir stem page_texts page
          save_csv).2.tried = (l1 ++ [a]).map tryDesc) ∧
    ((∀ b ∈ buildAttempts pno
          (page_texts.find? fun t => tableCapMatch t.text)
          (page.map Prod.fst) (page.map Prod.snd),
        ∃ l, engine b = Except.ok l ∧ l.countP acceptCand = 0) →
      (extract_tables_for_page engine toCsv pno workdir stem page_texts page
          save_csv).1 = [] ∧
      (extract_tables_for_page engine toCsv pno workdir stem page_texts page
          save_csv).2.error = some ("no tables detected on this page")) := by
  constructor
  · intro l1 a l2 e hA h1 he
    have hrun : runAttempts engine toCsv save_csv workdir stem pno
        (buildAttempts pno (page_texts.find? fun t => tableCapMatch t.text)
          (page.map Prod.fst) (page.map Prod.snd)) ⟨[], [], 0, 0, none⟩
        = ⟨[], l1.map tryDesc ++ [tryDesc a], 0, 0,
           some ("Camelot failed/skipped: " ++ e)⟩ := by
      rw [hA, runAttempts_zero_chain engine toCsv save_csv workdir stem pno
        (a :: l2) l1 _ h1, runAttempts_error_step engine toCsv save_csv
        workdir stem pno a l2 _ e he]
      simp
    have hb : (("Camelot failed/skipped: " ++ e) != "") = true :=
      bne_iff_ne.mpr (camelotMsg_ne_empty e)
    refine ⟨?_, ?_, camelotMsg_ne_noTables e, ?_⟩
    · simp only [extract_tables_for_page]
      rw [hrun]
    · simp only [extract_tables_for_page]
      rw [hrun]
      simp [truthyStr, hb]
    · simp only [extract_tables_for_page]
      rw [hrun]
      simp [List.map_append]
  · intro hall
    have hrun : runAttempts engine toCsv save_csv workdir stem pno
        (buildAttempts pno (page_texts.find? fun t => tableCapMatch t.text)
          (page.map Prod.fst) (page.map Prod.snd)) ⟨[], [], 0, 0, none⟩
        = ⟨[], (buildAttempts pno
            (page_texts.find? fun t => tableCapMatch t.text)
            (page.map Prod.fst) (page.map Prod.snd)).map tryDesc, 0, 0,
           none⟩ := by
      conv_lhs =>
        rw [← List.append_nil (buildAttempts pno
          (page_texts.find? fun t => tableCapMatch t.text)
          (page.map Prod.fst) (page.map Prod.snd))]
      rw [runAttempts_zero_chain engine toCsv save_csv workdir stem pno []
        _ _ hall]
      rfl
    constructor
    · simp only [extract_tables_for_page]
      rw [hrun]
    · simp only [extract_tables_for_page]
      rw [hrun]
      simp [truthyStr]

/-- C8 witness: an engine that raises on the very first attempt. -/
theorem engine_failure_isolated_instance :
    (extract_tables_for_page (fun _ => Except.error ("bad pdf"))
        (fun _ => Except.ok ()) 1 "w" "doc" [] none true).1 = [] ∧
    (extract_tables_for_page (fun _ => Except.error ("bad pdf"))
        (fun _ => Except.ok ()) 1 "w" "doc" [] none true).2.error
      = some ("Camelot failed/skipped: " ++ "bad pdf") ∧
    ("Camelot failed/skipped: " ++ "bad pdf")
      ≠ "no tables detected on this page" ∧
    (extract_tables_for_page (fun _ => Except.error ("bad pdf"))
        (fun _ => Except.ok ()) 1 "w" "doc" [] none true).2.tried
      = (([] : List TableAttempt) ++
          [latticeAttempt 1 none ("no-area,line_scale=40")]).map tryDesc :=
  (engine_failure_isolated (fun _ => Except.error ("bad pdf"))
      (fun _ => Except.ok ()) 1 "w" "doc" [] none true).1
    [] (latticeAttempt 1 none ("no-area,line_scale=40"))
    [streamAttempt 1 none ("no-area,row/col tol")] "bad pdf"
    (by with_unfolding_all rfl) (by simp) rfl

/-- C4 counterexample: with three acceptable candidates and a CSV write
that fails on the second, the second candidate's record is entirely
absent (not merely its path), the third candidate and the second attempt
are never processed, and the page's table diagnostic is set — the CSV
failure is not isolated to one artifact. -/
theorem csv_failure_counterexample :
    extract_tables_for_page
        (fun a => if a.flavor == "lattice" then
            Except.ok ([⟨2, 2, [["1", "a"], ["b", "c"]]⟩,
                        ⟨2, 2, [["2", "x"], ["y", "z"]]⟩,
                        ⟨2, 2, [["3", "q"], ["r", "s"]]⟩] : List TCand)
          else Except.ok [])
        (fun p => if p == "w/doc_p1_table1_lattice.csv" then Except.ok ()
                  else Except.error ("disk full"))
        1 "w" "doc" [] none true
      = ([⟨1, 1, "camelot", "lattice", 2, 2,
            some ("w/doc_p1_table1_lattice.csv")⟩],
         ⟨1, ["lattice:no-area,line_scale=40"], 0, 1,
          some ("Camelot failed/skipped: disk full")⟩) :=
  of_decide_eq_true (by with_unfolding_all rfl)

/-- C4 (amended): a CSV write failure for an accepted candidate is not
isolated to that one artifact: the exception propagates to the
page-level handler, which stops the attempt loop — records appended
before the failing write are returned, the failing candidate's record is
absent entirely, no later candidate or attempt is processed, and the
exception is recorded as the page's table diagnostic. -/
theorem csv_failure_aborts_page_tables
    (engine : TableAttempt → Except String (List TCand))
    (toCsv : String → Except String Unit) (save_csv : Bool)
    (workdir stem : String) (pno : Nat)
    (l1 : List TableAttempt) (a : TableAttempt) (l2 : List TableAttempt)
    (st : RunSt) (cands : List TCand) (tbls : List TableRec)
    (saved acc : Nat) (e : String)
    (h1 : ∀ b ∈ l1, ∃ l, engine b = Except.ok l ∧ l.countP acceptCand = 0)
    (h2 : engine a = Except.ok cands)
    (h3 : processCands toCsv save_csv workdir stem pno a.flavor cands 1
        st.tables st.saved_csv 0 = (tbls, saved, acc, some e)) :
    runAttempts engine toCsv save_csv workdir stem pno (l1 ++ a :: l2) st
      = ⟨tbls, st.tried ++ (l1 ++ [a]).map tryDesc, st.found, saved,
         some ("Camelot failed/skipped: " ++ e)⟩ := by
  have hcne : cands ≠ [] := by
    intro hc
    subst hc
    simp [processCands] at h3
  obtain ⟨x, xs, rfl⟩ := List.exists_cons_of_ne_nil hcne
  rw [runAttempts_zero_chain engine toCsv save_csv workdir stem pno
    (a :: l2) l1 st h1]
  simp only [runAttempts, h2, List.length_cons, Nat.succ_ne_zero, if_neg,
    not_false_iff]
  rw [h3]
  simp [List.map_append]

/-- C4 witness for the amended statement: the counterexample scenario
run through the attempt loop. -/
theorem csv_failure_aborts_page_tables_instance :
    runAttempts
        (fun a => if a.flavor == "lattice" then
            Except.ok ([⟨2, 2, [["1", "a"], ["b", "c"]]⟩,
                        ⟨2, 2, [["2", "x"], ["y", "z"]]⟩,
                        ⟨2, 2, [["3", "q"], ["r", "s"]]⟩] : List TCand)
          else Except.ok [])
        (fun p => if p == "w/doc_p1_table1_lattice.csv" then Except.ok ()
                  else Except.error ("disk full"))
        true ("w") ("doc") 1
        ([] ++ latticeAttempt 1 none ("no-area,line_scale=40") ::
          [streamAttempt 1 none ("no-area,row/col tol")]) ⟨[], [], 0, 0, none⟩
      = ⟨[⟨1, 1, "camelot", "lattice", 2, 2,
            some ("w/doc_p1_table1_lattice.csv")⟩],
         (⟨[], [], 0, 0, none⟩ : RunSt).tried ++
           (([] : List TableAttempt) ++
             [latticeAttempt 1 none ("no-area,line_scale=40")]).map tryDesc,
         (⟨[], [], 0, 0, none⟩ : RunSt).found, 1,
         some ("Camelot failed/skipped: " ++ "disk full")⟩ :=
  csv_failure_aborts_page_tables
    (fun a => if a.flavor == "lattice" then
        Except.ok ([⟨2, 2, [["1", "a"], ["b", "c"]]⟩,
                    ⟨2, 2, [["2", "x"], ["y", "z"]]⟩,
                    ⟨2, 2, [["3", "q"], ["r", "s"]]⟩] : List TCand)
      else Except.ok [])
    (fun p => if p == "w/doc_p1_table1_lattice.csv" then Except.ok ()
              else Except.error ("disk full"))
    true ("w") ("doc") 1
    [] (latticeAttempt 1 none ("no-area,line_scale=40"))
    [streamAttempt 1 none ("no-area,row/col tol")] ⟨[], [], 0, 0, none⟩
    [⟨2, 2, [["1", "a"], ["b", "c"]]⟩, ⟨2, 2, [["2", "x"], ["y", "z"]]⟩,
     ⟨2, 2, [["3", "q"], ["r", "s"]]⟩]
    [⟨1, 1, "camelot", "lattice", 2, 2,
      some ("w/doc_p1_table1_lattice.csv")⟩] 1 1 "disk full"
    (by simp) (by with_unfolding_all rfl)
    (by with_unfolding_all rfl)

end ScaleRAG

